import Mathlib

/-!
Verification of the kez Stack Lifecycle Orchestrator against its source.

The definitions below are shallow embeddings of the Go source:
* `internal/config/config.go` — the `RecentCluster` record and persisted config;
* `internal/api/api.go` — `AddRecentCluster`, `GetRecentClusters`,
  `CreateToken`/`CreateTokenWithDescription`, `DeleteToken`,
  `FindClusterByName`, `RemoveTokenFromCluster`;
* the `stack delete` command (`DeleteCmd.Run`) — discovery/resolution,
  confirmation, uninstall, termination polling, namespace reconciliation,
  and token revocation.

Stateful Go code is embedded as explicit state passing: the persisted
config's `RecentClusters` slice becomes a `List RecentCluster`, the remote
registry's token set becomes a `List (String × String)` of
(clusterID, tokenID) pairs, and external effects (helm, kubectl, survey
prompts, HTTP) are supplied as oracle fields of an environment structure.
-/

set_option autoImplicit false

namespace Kez

/-- `config.RecentCluster` (internal/config/config.go).  Go strings default
to `""`; the `omitempty` token fields are absent exactly when `""`. -/
structure RecentCluster where
  uuid : String
  name : String
  orgSlug : String
  tokenID : String
  tokenVal : String
deriving DecidableEq, Repr

/-- The identity/name pair of a `buildkite.Cluster` as used by
`AddRecentCluster` (only `ID` and `Name` are read from it). -/
structure Cluster where
  id : String
  name : String
deriving DecidableEq, Repr

/-- `maxRecent` constant in `AddRecentCluster` (api.go line 116). -/
def maxRecent : Nat := 10

/-- The `newRecent` value built at the top of `AddRecentCluster`
(api.go lines 89-93): token fields are not specified, i.e. `""`. -/
def newRecentOf (orgSlug : String) (cluster : Cluster) : RecentCluster :=
  { uuid := cluster.id
    name := cluster.name
    orgSlug := orgSlug
    tokenID := ""
    tokenVal := "" }

/-- The found-branch of `AddRecentCluster` (api.go lines 95-113): find the
first record with the same uuid and replace it in place with `newRecent`,
preserving the stored token fields when the existing record has a
non-empty `TokenID`.  Returns `none` when no record matches (`found`
stays false in the Go loop). -/
def replaceFound (newRecent : RecentCluster) : List RecentCluster → Option (List RecentCluster)
  | [] => none
  | r :: rs =>
    if r.uuid = newRecent.uuid then
      let merged :=
        if r.tokenID ≠ "" then
          { newRecent with tokenID := r.tokenID, tokenVal := r.tokenVal }
        else
          newRecent
      some (merged :: rs)
    else
      (replaceFound newRecent rs).map (fun rs2 => r :: rs2)

/-- `Client.AddRecentCluster` (api.go lines 84-129), acting on the
`RecentClusters` slice of the loaded config.  Found: replace in place.
Not found: append, then keep only the last `maxRecent` entries
(`RecentClusters[len-maxRecent:]`).  The trailing `config.Save` only
reports persistence errors and does not change the slice. -/
def addRecentCluster (orgSlug : String) (cluster : Cluster)
    (recents : List RecentCluster) : List RecentCluster :=
  let newRecent := newRecentOf orgSlug cluster
  match replaceFound newRecent recents with
  | some updated => updated
  | none =>
    let appended := recents ++ [newRecent]
    if maxRecent < appended.length then
      appended.drop (appended.length - maxRecent)
    else
      appended

/-- A sequence of `AddRecentCluster` calls, oldest call first. -/
def upsertAll (orgSlug : String) (clusters : List Cluster)
    (recents : List RecentCluster) : List RecentCluster :=
  clusters.foldl (fun acc c => addRecentCluster orgSlug c acc) recents

/-- `Client.GetRecentClusters` (api.go lines 131-137): returns the
`RecentClusters` slice as is (with a loaded config). -/
def getRecentClusters (recents : List RecentCluster) : List RecentCluster :=
  recents

/-- The fields of `buildkite.ClusterToken` read by the source
(`token.ID` and `token.Token`). -/
structure ClusterToken where
  id : String
  token : String
deriving DecidableEq, Repr

/-- The cache-update loop shared by `CreateToken` and
`CreateTokenWithDescription` (api.go lines 151-162 and 179-190): set the
token fields of the first record whose uuid equals `clusterID`, then stop
(`break`); later records are untouched. -/
def updateRecentsToken (clusterID : String) (token : ClusterToken) :
    List RecentCluster → List RecentCluster
  | [] => []
  | r :: rs =>
    if r.uuid = clusterID then
      { r with tokenID := token.id, tokenVal := token.token } :: rs
    else
      r :: updateRecentsToken clusterID token rs

/-- Result of a successful `CreateToken` call: the minted token, the
cache after the update loop, and whether a save-failure warning was
printed (the save only runs inside the matching branch of the loop). -/
structure CreateTokenOutcome where
  token : ClusterToken
  recents : List RecentCluster
  saveWarning : Bool
deriving DecidableEq, Repr

/-- `Client.CreateToken` / `Client.CreateTokenWithDescription`
(api.go lines 140-165 and 168-193).  The remote registry call and the
persistence outcome are oracles: `regResult` is what
`bk.CreateToken` returned; `saveOk` is whether `config.Save` succeeded.
On registry error the wrapped error is returned and the cache is
untouched; on success the cache-update loop runs, a failed save is only a
printed warning, and the token is returned either way. -/
def createToken (regResult : Except String ClusterToken) (clusterID : String)
    (recents : List RecentCluster) (saveOk : Bool) :
    Except String CreateTokenOutcome :=
  match regResult with
  | .error e => .error ("failed to create token for cluster: " ++ e)
  | .ok token =>
    .ok { token := token
          recents := updateRecentsToken clusterID token recents
          saveWarning := recents.any (fun r => r.uuid = clusterID) && !saveOk }

/-- Modelled from the spec: the remote registry boundary for token
deletion (`client.ClusterTokens.Delete`, an external SDK/HTTP call not in
this repository).  Per §6 the registry holds tokens per cluster and
"reports" a token as already absent: deleting a present
(clusterID, tokenID) pair succeeds and removes it; deleting an absent
pair is reported as an error by the registry. -/
def registryDeleteToken (reg : List (String × String))
    (clusterID tokenID : String) : Except String (List (String × String)) :=
  if (clusterID, tokenID) ∈ reg then
    .ok (reg.filter (fun p => ¬(p.1 = clusterID ∧ p.2 = tokenID)))
  else
    .error "token not found"

/-- `Client.DeleteToken` (api.go lines 209-221): forwards to
`bk.DeleteToken` and wraps any error; no error is inspected or converted
to success. -/
def clientDeleteToken (reg : List (String × String))
    (clusterID tokenID : String) : Except String (List (String × String)) :=
  match registryDeleteToken reg clusterID tokenID with
  | .error e => .error ("failed to delete token: " ++ e)
  | .ok reg2 => .ok reg2

/-- `Client.RemoveTokenFromCluster` (api.go lines 243-268): clear the
token fields of the first record matching both `uuid` and `tokenID`,
then stop.  Returns `none` when no record matches (the Go function
returns a "token not found" error). -/
def removeTokenFromCluster (clusterID tokenID : String) :
    List RecentCluster → Option (List RecentCluster)
  | [] => none
  | r :: rs =>
    if r.uuid = clusterID ∧ r.tokenID = tokenID then
      some ({ r with tokenID := "", tokenVal := "" } :: rs)
    else
      (removeTokenFromCluster clusterID tokenID rs).map (fun rs2 => r :: rs2)

/-- The revoke sequence for one cluster/token pair as the teardown runs
it (stack delete, token-cleanup loop): `Client.DeleteToken`, and on its
success `Client.RemoveTokenFromCluster` (whose own failure is only a
printed warning).  Returns the per-call result together with the
registry and cache afterwards. -/
def revokeToken (reg : List (String × String)) (recents : List RecentCluster)
    (clusterID tokenID : String) :
    Except String Unit × List (String × String) × List RecentCluster :=
  match clientDeleteToken reg clusterID tokenID with
  | .error e => (.error e, reg, recents)
  | .ok reg2 =>
    match removeTokenFromCluster clusterID tokenID recents with
    | none => (.ok (), reg2, recents)
    | some recents2 => (.ok (), reg2, recents2)

/-- `leadSeg sub s` decides whether `sub` is a leading segment of `s`;
helper for Go's `strings.Contains`. -/
def leadSeg : List Char → List Char → Bool
  | [], _ => true
  | _ :: _, [] => false
  | a :: as, b :: bs => a = b && leadSeg as bs

/-- `hasSeg sub s` decides whether `sub` occurs contiguously in `s`:
the embedding of Go's `strings.Contains s sub`. -/
def hasSeg (sub : List Char) : List Char → Bool
  | [] => sub.isEmpty
  | c :: cs => leadSeg sub (c :: cs) || hasSeg sub cs

/-- Go's `strings.ToLower`, embedded as per-character lower-casing of
the character sequence of a string. -/
def lowerChars (s : String) : List Char :=
  s.data.map Char.toLower

/-- `Client.FindClusterByName` (api.go lines 224-240): lower-case both
sides and keep the records whose name contains the query as a
substring, in cache order. -/
def findClusterByName (name : String) (recents : List RecentCluster) :
    List RecentCluster :=
  let normalizedName := lowerChars name
  recents.filter (fun cluster => hasSeg normalizedName (lowerChars cluster.name))

/-- The `clustersToDelete` computation of `DeleteCmd.Run` (stack delete,
lines 205-235): with `--all`, every recent record holding a token; for a
named delete, the name-matched records holding tokens
(`FindClusterByName`), and when that yields nothing, the first recent
record holding a token (`break` after the first hit). -/
def computeClustersToDelete (all : Bool) (name : String)
    (recents : List RecentCluster) : List RecentCluster :=
  if all then
    recents.filter (fun c => c.tokenID ≠ "")
  else
    let matched := (findClusterByName name recents).filter (fun c => c.tokenID ≠ "")
    if matched.isEmpty then
      match recents.find? (fun c => c.tokenID ≠ "") with
      | some c => [c]
      | none => []
    else
      matched

/-- The flags of `DeleteCmd` (stack delete, lines 19-25). -/
structure DeleteFlags where
  force : Bool
  timeout : Nat
  name : String
  all : Bool
  noWait : Bool
deriving DecidableEq, Repr

/-- Oracle results consumed during the discovery/resolution part of
`DeleteCmd.Run` (lines 31-140).  `helmList` is the outcome of
`helm list -n buildkite -o json` after the line-based name extraction:
`.error` when the command failed, `.ok names` otherwise — empty output,
a literal `[]`, and output with no name lines all give `.ok []`.
`selectOutcome` is the survey selection: `none` when the prompt errored
or was cancelled, `some i` the chosen index among the options
(index `stackList.length` is the appended "Delete all stacks" entry). -/
structure ResolveEnv where
  stackInstalled : Except String Bool
  helmAvailable : Bool
  helmList : Except String (List String)
  selectOutcome : Option Nat
deriving Repr

/-- Outcome of discovery/resolution: an error return (with the list of
available stacks shown alongside a not-found error), an early successful
return because nothing is installed/found, or the resolved `(all, name)`
target together with helm availability. -/
inductive ResolveOutcome where
  | fail (msg : String) (available : List String)
  | noStack
  | proceed (all : Bool) (name : String) (helmAvail : Bool)
deriving DecidableEq, Repr

/-- Discovery and target resolution of `DeleteCmd.Run` (lines 31-140),
transcribed branch by branch. -/
def resolvePhase (flags : DeleteFlags) (env : ResolveEnv) : ResolveOutcome :=
  match env.stackInstalled with
  | .error _ => .fail "failed to check if agent stack is installed" []
  | .ok false => .noStack
  | .ok true =>
    if !env.helmAvailable then
      if flags.name = "" ∧ !flags.all then
        .fail "helm not available and no stack name specified" []
      else
        .proceed flags.all flags.name false
    else
      match env.helmList with
      | .error _ =>
        if flags.name = "" ∧ !flags.all then
          .fail "failed to list helm releases and no stack name specified" []
        else
          .proceed flags.all flags.name true
      | .ok stackList =>
        if stackList.isEmpty then
          .noStack
        else if flags.name = "" ∧ !flags.all then
          if stackList.length = 1 then
            .proceed false (stackList.headD "") true
          else if !flags.force then
            match env.selectOutcome with
            | none => .fail "selection cancelled" []
            | some i =>
              if i = stackList.length then
                .proceed true "" true
              else
                .proceed false (stackList.getD i "") true
          else
            .fail "multiple stacks found but no specific stack name provided" []
        else if flags.name ≠ "" ∧ !flags.all then
          if flags.name ∈ stackList then
            .proceed false flags.name true
          else
            .fail "specified stack not found" stackList
        else
          .proceed flags.all flags.name true

/-- Oracle results consumed after resolution by `DeleteCmd.Run`:
connectivity checks, confirmation prompts, the re-listing of releases
for an `--all` uninstall, pod polling observations
(`none` = the kubectl query errored, treated as terminated;
`some n` = `n` non-terminal pods remain), the namespace re-check and
prompt, and the cache/registry state used for token revocation. -/
structure RunEnv where
  k8sConnOk : Bool
  kubectlOk : Bool
  contextOk : Bool
  clientOk : Bool
  recents : List RecentCluster
  reg : List (String × String)
  confirmOutcome : Option Bool
  helmListForAll : List String
  podPolls : Nat → Option Nat
  helmRemainingAfter : Bool
  nsConfirm : Option Bool

/-- One pass of the termination-wait loop body (lines 435-495) with a
poll budget: `polls k` is the k-th observation; a kubectl error or a
zero count ends the wait with success (`true`); exhausting the budget is
the timeout (`false`). -/
def waitPolls (polls : Nat → Option Nat) : Nat → Nat → Bool
  | 0, _ => false
  | fuel + 1, k =>
    match polls k with
    | none => true
    | some 0 => true
    | some (_ + 1) => waitPolls polls fuel (k + 1)

/-- The termination wait (lines 424-498) discretized on the 2-second
ticker: the top-of-loop deadline check `time.Since(start) > timeout`
admits `timeout / 2 + 1` polls before timing out.  Returns `true` iff
all pods were observed terminated before the deadline. -/
def waitForTermination (timeoutSecs : Nat) (polls : Nat → Option Nat) : Bool :=
  waitPolls polls (timeoutSecs / 2 + 1) 0

/-- One iteration of the token-cleanup loop (lines 548-568) over the
state (registry, cache, deleted-token count, warning count): skip
records without a token; a `DeleteToken` failure is a warning and leaves
both states; on success the cache cleanup runs, its own failure being
another warning. -/
def revokeStep (st : List (String × String) × List RecentCluster × Nat × Nat)
    (cluster : RecentCluster) :
    List (String × String) × List RecentCluster × Nat × Nat :=
  if cluster.tokenID = "" then
    st
  else
    match clientDeleteToken st.1 cluster.uuid cluster.tokenID with
    | .error _ => (st.1, st.2.1, st.2.2.1, st.2.2.2 + 1)
    | .ok reg2 =>
      match removeTokenFromCluster cluster.uuid cluster.tokenID st.2.1 with
      | none => (reg2, st.2.1, st.2.2.1 + 1, st.2.2.2 + 1)
      | some recents2 => (reg2, recents2, st.2.2.1 + 1, st.2.2.2)

/-- The full token-cleanup loop over `clustersToDelete`: individual
failures only increment the warning count and never abort the fold. -/
def revokeAll (reg : List (String × String)) (recents : List RecentCluster)
    (clusters : List RecentCluster) :
    List (String × String) × List RecentCluster × Nat × Nat :=
  clusters.foldl revokeStep (reg, recents, 0, 0)

/-- How a non-error run of `DeleteCmd.Run` ended: full teardown reached
the final summary, the user declined the confirmation, or nothing was
installed/found. -/
inductive RunEnd where
  | done
  | cancelled
  | noStack
deriving DecidableEq, Repr

/-- Observable outcome of one `DeleteCmd.Run` invocation: the returned
result, the helm uninstalls that were invoked, whether the termination
wait timed out (a printed warning), which late stages were reached, the
token-revocation tallies, and the cache/registry afterwards. -/
structure RunOutput where
  result : Except String RunEnd
  uninstallCalls : List String
  timeoutWarning : Bool
  reachedNamespaceStage : Bool
  reachedRevokeStage : Bool
  deletedTokens : Nat
  revokeWarnings : Nat
  recentsAfter : List RecentCluster
  regAfter : List (String × String)

/-- A run that stopped before the uninstall stage: no uninstall calls,
no warnings, cache and registry untouched. -/
def earlyStop (res : Except String RunEnd) (env : RunEnv) : RunOutput :=
  { result := res
    uninstallCalls := []
    timeoutWarning := false
    reachedNamespaceStage := false
    reachedRevokeStage := false
    deletedTokens := 0
    revokeWarnings := 0
    recentsAfter := env.recents
    regAfter := env.reg }

/-- The destructive tail of `DeleteCmd.Run` (lines 292-587), entered
after an affirmative (or forced) confirmation: uninstall the target
release(s) (failures are warnings), clean ancillary resources (warnings
only, no modelled state), wait for termination unless `--no-wait`,
reconcile the namespace when the scope was `--all` (a cancelled prompt
there returns an error), then run token cleanup and return the summary. -/
def runTeardown (flags : DeleteFlags) (all : Bool) (name : String)
    (helmAvail : Bool) (clustersToDelete : List RecentCluster)
    (env : RunEnv) : RunOutput :=
  let uninstallCalls :=
    if helmAvail then (if all then env.helmListForAll else [name]) else []
  let timedOut :=
    if flags.noWait then false else !waitForTermination flags.timeout env.podPolls
  if all && helmAvail && !env.helmRemainingAfter && !flags.force
      && env.nsConfirm.isNone then
    { result := .error "prompt cancelled"
      uninstallCalls := uninstallCalls
      timeoutWarning := timedOut
      reachedNamespaceStage := true
      reachedRevokeStage := false
      deletedTokens := 0
      revokeWarnings := 0
      recentsAfter := env.recents
      regAfter := env.reg }
  else
    let revoked := revokeAll env.reg env.recents clustersToDelete
    { result := .ok .done
      uninstallCalls := uninstallCalls
      timeoutWarning := timedOut
      reachedNamespaceStage := all && helmAvail
      reachedRevokeStage := true
      deletedTokens := revoked.2.2.1
      revokeWarnings := revoked.2.2.2
      recentsAfter := revoked.2.1
      regAfter := revoked.1 }

/-- `DeleteCmd.Run` (stack delete, lines 28-587) as a function of the
flags and the oracle environments: resolution, connectivity checks,
`clustersToDelete`, confirmation, then the destructive tail.  The API
client failing to initialize (`clientOk = false`) only skips the
cache-derived parts, as in the source (`client != nil` guards). -/
def deleteRun (flags : DeleteFlags) (renv : ResolveEnv) (env : RunEnv) :
    RunOutput :=
  match resolvePhase flags renv with
  | .fail msg _ => earlyStop (.error msg) env
  | .noStack => earlyStop (.ok .noStack) env
  | .proceed all name helmAvail =>
    if !env.k8sConnOk then
      earlyStop (.error "kubernetes connection check failed") env
    else if !env.kubectlOk then
      earlyStop (.error "kubectl not found in PATH") env
    else if !env.contextOk then
      earlyStop (.error "failed to get Kubernetes context") env
    else
      let clustersToDelete :=
        if env.clientOk then computeClustersToDelete all name env.recents else []
      match (if flags.force then some true else env.confirmOutcome) with
      | none => earlyStop (.error "prompt cancelled") env
      | some false => earlyStop (.ok .cancelled) env
      | some true => runTeardown flags all name helmAvail clustersToDelete env

/-! ## Helper lemmas -/

theorem hasSeg_nil_left (l : List Char) : hasSeg [] l = true := by
  cases l <;> simp [hasSeg, leadSeg]

theorem replaceFound_eq_none (n : RecentCluster) :
    ∀ l : List RecentCluster, replaceFound n l = none ↔ ∀ r ∈ l, r.uuid ≠ n.uuid := by
  intro l
  induction l with
  | nil => simp [replaceFound]
  | cons r rs ih =>
    by_cases h : r.uuid = n.uuid
    · simp [replaceFound, h]
    · simp only [replaceFound, if_neg h, Option.map_eq_none']
      constructor
      · intro hnone r2 hmem
        rcases List.mem_cons.mp hmem with rfl | hmem2
        · exact h
        · exact (ih.mp hnone) r2 hmem2
      · intro hall
        exact ih.mpr (fun r2 hmem2 => hall r2 (List.mem_cons_of_mem r hmem2))

theorem replaceFound_map_uuid (n : RecentCluster) :
    ∀ l l2 : List RecentCluster, replaceFound n l = some l2 →
      l2.map RecentCluster.uuid = l.map RecentCluster.uuid := by
  intro l
  induction l with
  | nil => intro l2 h; simp [replaceFound] at h
  | cons r rs ih =>
    intro l2 h
    by_cases hu : r.uuid = n.uuid
    · simp only [replaceFound, if_pos hu] at h
      by_cases ht : r.tokenID ≠ ""
      · simp only [if_pos ht] at h
        injection h with h2
        subst h2
        simp [hu]
      · simp only [if_neg ht] at h
        injection h with h2
        subst h2
        simp [hu]
    · simp only [replaceFound, if_neg hu, Option.map_eq_some'] at h
      obtain ⟨l3, hl3, rfl⟩ := h
      simp [ih l3 hl3]

theorem replaceFound_length (n : RecentCluster) (l l2 : List RecentCluster)
    (h : replaceFound n l = some l2) : l2.length = l.length := by
  have := replaceFound_map_uuid n l l2 h
  have h2 := congrArg List.length this
  simpa using h2

/-! ## C10 — empty query matches every record -/

/-- C10: `FindClusterByName` with the empty-string query returns every
record of the cache, in cache order: the empty string lower-cases to the
empty string, which is a substring of every name, so the filter keeps
everything. -/
theorem findClusterByName_empty_query (recents : List RecentCluster) :
    findClusterByName "" recents = recents := by
  have hdata : lowerChars "" = [] := by decide
  simp only [findClusterByName]
  rw [List.filter_eq_self]
  intro r _
  rw [hdata]
  exact hasSeg_nil_left _

/-! ## C1 — position of the most recently upserted record -/

/-- C1 counterexample: starting from the empty cache, upsert uuid `u1`,
then `u2`, then `u1` again.  The cache order is `[u1, u2]`: the record
just upserted (`u1`) is not the last element — `AddRecentCluster`
replaces an existing uuid in place and does not move it to the tail. -/
theorem addRecentCluster_existing_stays_in_place :
    (addRecentCluster "org" ⟨"u1", "one"⟩
        (addRecentCluster "org" ⟨"u2", "two"⟩
          (addRecentCluster "org" ⟨"u1", "one"⟩ []))).map RecentCluster.uuid
      = ["u1", "u2"] ∧ ("u2" : String) ≠ "u1" := by
  exact ⟨rfl, by decide⟩

/-- C1 amended: a uuid not already present is appended and is the last
element of `GetRecentClusters` afterwards; upserting a uuid already
present replaces its record in place, leaving the sequence of uuids —
and hence the record's position — unchanged. -/
theorem addRecentCluster_tail_position (orgSlug : String) (c : Cluster)
    (recents : List RecentCluster) :
    (c.id ∉ recents.map RecentCluster.uuid →
      (getRecentClusters (addRecentCluster orgSlug c recents)).getLast?
        = some (newRecentOf orgSlug c)) ∧
    (c.id ∈ recents.map RecentCluster.uuid →
      (getRecentClusters (addRecentCluster orgSlug c recents)).map RecentCluster.uuid
        = recents.map RecentCluster.uuid) := by
  constructor
  · intro hfresh
    have hnone : replaceFound (newRecentOf orgSlug c) recents = none := by
      rw [replaceFound_eq_none]
      intro r hmem heq
      apply hfresh
      have hm : r.uuid ∈ recents.map RecentCluster.uuid :=
        List.mem_map_of_mem RecentCluster.uuid hmem
      have hc : r.uuid = c.id := heq
      rw [← hc]
      exact hm
    simp only [getRecentClusters, addRecentCluster, hnone]
    have hlen1 : (recents ++ [newRecentOf orgSlug c]).length = recents.length + 1 := by
      simp
    by_cases hlen : maxRecent < (recents ++ [newRecentOf orgSlug c]).length
    · rw [if_pos hlen]
      rw [hlen1] at hlen
      have hle : (recents ++ [newRecentOf orgSlug c]).length - maxRecent ≤ recents.length := by
        rw [hlen1]
        simp only [maxRecent] at hlen ⊢
        omega
      rw [List.drop_append_of_le_length hle]
      exact List.getLast?_concat _
    · rw [if_neg hlen]
      exact List.getLast?_concat _
  · intro hpresent
    obtain ⟨r, hmem, huuid⟩ := List.mem_map.mp hpresent
    have hsome : replaceFound (newRecentOf orgSlug c) recents ≠ none := by
      intro hnone
      rw [replaceFound_eq_none] at hnone
      exact hnone r hmem huuid
    obtain ⟨l2, hl2⟩ := Option.ne_none_iff_exists'.mp hsome
    simp only [getRecentClusters, addRecentCluster, hl2]
    exact replaceFound_map_uuid _ _ _ hl2

/-- C1 amended, witnessed at concrete inputs: a fresh uuid lands at the
tail, and re-upserting the head of a two-record cache leaves the uuid
order unchanged. -/
theorem addRecentCluster_tail_position_witness :
    ((("u3" : String) ∉ ([⟨"u1", "a", "o", "", ""⟩, ⟨"u2", "b", "o", "", ""⟩] :
        List RecentCluster).map RecentCluster.uuid) ∧
      (getRecentClusters (addRecentCluster "o" ⟨"u3", "c"⟩
          [⟨"u1", "a", "o", "", ""⟩, ⟨"u2", "b", "o", "", ""⟩])).getLast?
        = some (newRecentOf "o" ⟨"u3", "c"⟩)) ∧
    ((("u1" : String) ∈ ([⟨"u1", "a", "o", "", ""⟩, ⟨"u2", "b", "o", "", ""⟩] :
        List RecentCluster).map RecentCluster.uuid) ∧
      (getRecentClusters (addRecentCluster "o" ⟨"u1", "c"⟩
          [⟨"u1", "a", "o", "", ""⟩, ⟨"u2", "b", "o", "", ""⟩])).map RecentCluster.uuid
        = ([⟨"u1", "a", "o", "", ""⟩, ⟨"u2", "b", "o", "", ""⟩] :
            List RecentCluster).map RecentCluster.uuid) := by
  constructor
  · exact ⟨by decide,
      (addRecentCluster_tail_position "o" ⟨"u3", "c"⟩ _).1 (by decide)⟩
  · exact ⟨by decide,
      (addRecentCluster_tail_position "o" ⟨"u1", "c"⟩ _).2 (by decide)⟩

/-! ## C2 — bound and uniqueness invariants -/

theorem addRecentCluster_step (orgSlug : String) (c : Cluster)
    (recents : List RecentCluster)
    (hlen : recents.length ≤ maxRecent)
    (hnodup : (recents.map RecentCluster.uuid).Nodup) :
    (addRecentCluster orgSlug c recents).length ≤ maxRecent ∧
    ((addRecentCluster orgSlug c recents).map RecentCluster.uuid).Nodup := by
  cases hrf : replaceFound (newRecentOf orgSlug c) recents with
  | some l2 =>
    have hmap := replaceFound_map_uuid _ _ _ hrf
    have hl := replaceFound_length _ _ _ hrf
    simp only [addRecentCluster, hrf]
    exact ⟨hl ▸ hlen, hmap ▸ hnodup⟩
  | none =>
    have hfresh := (replaceFound_eq_none _ _).mp hrf
    have hnotmem : (newRecentOf orgSlug c).uuid ∉ recents.map RecentCluster.uuid := by
      intro hmem
      obtain ⟨r, hr, hru⟩ := List.mem_map.mp hmem
      exact hfresh r hr hru
    have happnodup :
        ((recents ++ [newRecentOf orgSlug c]).map RecentCluster.uuid).Nodup := by
      rw [List.map_append]
      rw [List.nodup_append]
      refine ⟨hnodup, by simp, ?_⟩
      intro a ha hb
      simp only [List.map_cons, List.map_nil, List.mem_singleton] at hb
      subst hb
      exact hnotmem ha
    simp only [addRecentCluster, hrf]
    by_cases hgt : maxRecent < (recents ++ [newRecentOf orgSlug c]).length
    · rw [if_pos hgt]
      constructor
      · rw [List.length_drop]
        omega
      · rw [List.map_drop]
        exact List.Sublist.nodup (List.drop_sublist _ _) happnodup
    · rw [if_neg hgt]
      exact ⟨by omega, happnodup⟩

/-- C2: starting from any cache of at most 10 records with pairwise
distinct uuids, every sequence of `AddRecentCluster` calls keeps the
cache at most 10 records long with pairwise distinct uuids; and a single
insert of a fresh uuid into a full cache drops exactly the oldest
(head) record, appending the new one at the tail. -/
theorem upsertAll_invariants (orgSlug : String) (clusters : List Cluster)
    (recents : List RecentCluster)
    (hlen : recents.length ≤ maxRecent)
    (hnodup : (recents.map RecentCluster.uuid).Nodup) :
    ((upsertAll orgSlug clusters recents).length ≤ maxRecent ∧
      ((upsertAll orgSlug clusters recents).map RecentCluster.uuid).Nodup) ∧
    (∀ c : Cluster, recents.length = maxRecent →
      c.id ∉ recents.map RecentCluster.uuid →
      addRecentCluster orgSlug c recents
        = recents.drop 1 ++ [newRecentOf orgSlug c]) := by
  constructor
  · induction clusters generalizing recents with
    | nil => exact ⟨hlen, hnodup⟩
    | cons c cs ih =>
      have hstep := addRecentCluster_step orgSlug c recents hlen hnodup
      simpa [upsertAll, List.foldl_cons] using
        ih (addRecentCluster orgSlug c recents) hstep.1 hstep.2
  · intro c hfull hfresh
    have hnone : replaceFound (newRecentOf orgSlug c) recents = none := by
      rw [replaceFound_eq_none]
      intro r hmem heq
      apply hfresh
      have hm : r.uuid ∈ recents.map RecentCluster.uuid :=
        List.mem_map_of_mem RecentCluster.uuid hmem
      have hc : r.uuid = c.id := heq
      rw [← hc]
      exact hm
    have hlen1 : (recents ++ [newRecentOf orgSlug c]).length = recents.length + 1 := by
      simp
    have hgt : maxRecent < (recents ++ [newRecentOf orgSlug c]).length := by
      rw [hlen1, hfull]
      omega
    have hk : (recents ++ [newRecentOf orgSlug c]).length - maxRecent = 1 := by
      rw [hlen1, hfull]
      omega
    have hone : (1 : Nat) ≤ recents.length := by
      rw [hfull]
      simp [maxRecent]
    simp only [addRecentCluster, hnone, if_pos hgt, hk]
    exact List.drop_append_of_le_length hone

/-- C2 witnessed at a concrete input: two upserts into a singleton
cache keep the bound and uniqueness, and a fresh upsert into a full
10-record cache drops the head record only. -/
theorem upsertAll_invariants_witness :
    ((upsertAll "o" [⟨"u2", "b"⟩, ⟨"u1", "c"⟩] [⟨"u1", "a", "o", "", ""⟩]).length ≤ maxRecent ∧
      ((upsertAll "o" [⟨"u2", "b"⟩, ⟨"u1", "c"⟩]
          [⟨"u1", "a", "o", "", ""⟩]).map RecentCluster.uuid).Nodup) ∧
    (∀ c : Cluster, ([⟨"u1", "a", "o", "", ""⟩] : List RecentCluster).length = maxRecent →
      c.id ∉ ([⟨"u1", "a", "o", "", ""⟩] : List RecentCluster).map RecentCluster.uuid →
      addRecentCluster "o" c [⟨"u1", "a", "o", "", ""⟩]
        = ([⟨"u1", "a", "o", "", ""⟩] : List RecentCluster).drop 1 ++ [newRecentOf "o" c]) :=
  upsertAll_invariants "o" [⟨"u2", "b"⟩, ⟨"u1", "c"⟩]
    [⟨"u1", "a", "o", "", ""⟩] (by decide) (by decide)

/-! ## C3 — token fields survive a token-less upsert -/

theorem replaceFound_preserves_token (n : RecentCluster) :
    ∀ (l : List RecentCluster) (r : RecentCluster),
      (l.map RecentCluster.uuid).Nodup → r ∈ l → r.uuid = n.uuid → r.tokenID ≠ "" →
      ∃ l2, replaceFound n l = some l2 ∧
        ∃ r2 ∈ l2, r2.uuid = n.uuid ∧ r2.tokenID = r.tokenID ∧ r2.tokenVal = r.tokenVal := by
  intro l
  induction l with
  | nil => intro r _ hmem; exact absurd hmem (List.not_mem_nil r)
  | cons r0 rs ih =>
    intro r hnodup hmem huuid htok
    have hsplit : r0.uuid ∉ rs.map RecentCluster.uuid ∧
        (rs.map RecentCluster.uuid).Nodup := by
      rw [List.map_cons, List.nodup_cons] at hnodup
      exact hnodup
    by_cases h0 : r0.uuid = n.uuid
    · have hr : r = r0 := by
        rcases List.mem_cons.mp hmem with rfl | hmem2
        · rfl
        · exfalso
          have hin : r.uuid ∈ rs.map RecentCluster.uuid :=
            List.mem_map_of_mem RecentCluster.uuid hmem2
          rw [huuid, ← h0] at hin
          exact hsplit.1 hin
      subst hr
      refine ⟨⟨n.uuid, n.name, n.orgSlug, r.tokenID, r.tokenVal⟩ :: rs, ?_, ?_⟩
      · simp only [replaceFound, if_pos h0, if_pos htok]
      · exact ⟨_, List.mem_cons_self _ _, rfl, rfl, rfl⟩
    · have hmem2 : r ∈ rs := by
        rcases List.mem_cons.mp hmem with rfl | hmem2
        · exact absurd huuid h0
        · exact hmem2
      obtain ⟨l2, hl2, r2, hr2mem, hr2⟩ := ih r hsplit.2 hmem2 huuid htok
      refine ⟨r0 :: l2, ?_, r2, List.mem_cons_of_mem r0 hr2mem, hr2⟩
      simp only [replaceFound, if_neg h0, hl2, Option.map_some']

/-- C3: if the cache holds a record for some uuid with a non-empty
token, then `AddRecentCluster` for that uuid — which always supplies
empty token fields — leaves a record for that uuid carrying exactly the
previously stored token fields. -/
theorem addRecentCluster_preserves_token (orgSlug : String) (c : Cluster)
    (recents : List RecentCluster) (r : RecentCluster)
    (hnodup : (recents.map RecentCluster.uuid).Nodup)
    (hmem : r ∈ recents) (huuid : r.uuid = c.id) (htok : r.tokenID ≠ "") :
    ∃ r2 ∈ addRecentCluster orgSlug c recents,
      r2.uuid = c.id ∧ r2.tokenID = r.tokenID ∧ r2.tokenVal = r.tokenVal := by
  obtain ⟨l2, hl2, r2, hr2mem, hu2, ht2, hv2⟩ :=
    replaceFound_preserves_token (newRecentOf orgSlug c) recents r hnodup hmem huuid htok
  simp only [addRecentCluster, hl2]
  exact ⟨r2, hr2mem, hu2, ht2, hv2⟩

/-- C3 witnessed at a concrete input: upserting `u1` again, with no
token fields on the new record, keeps the stored token `t1`/`v1`. -/
theorem addRecentCluster_preserves_token_witness :
    ∃ r2 ∈ addRecentCluster "o" ⟨"u1", "c"⟩
        [⟨"u1", "a", "o", "t1", "v1"⟩, ⟨"u2", "b", "o", "", ""⟩],
      r2.uuid = "u1" ∧ r2.tokenID = "t1" ∧ r2.tokenVal = "v1" :=
  addRecentCluster_preserves_token "o" ⟨"u1", "c"⟩
    [⟨"u1", "a", "o", "t1", "v1"⟩, ⟨"u2", "b", "o", "", ""⟩]
    ⟨"u1", "a", "o", "t1", "v1"⟩ (by decide) (by decide) (by decide) (by decide)

/-! ## C9 — token creation and the cache -/

theorem updateRecentsToken_mem (clusterID : String) (token : ClusterToken) :
    ∀ (l : List RecentCluster) (r : RecentCluster), r ∈ l → r.uuid = clusterID →
      ∃ r2 ∈ updateRecentsToken clusterID token l,
        r2.uuid = clusterID ∧ r2.tokenID = token.id ∧ r2.tokenVal = token.token := by
  intro l
  induction l with
  | nil => intro r hmem; exact absurd hmem (List.not_mem_nil r)
  | cons r0 rs ih =>
    intro r hmem huuid
    by_cases h0 : r0.uuid = clusterID
    · refine ⟨⟨r0.uuid, r0.name, r0.orgSlug, token.id, token.token⟩, ?_, h0, rfl, rfl⟩
      simp only [updateRecentsToken, if_pos h0]
      exact List.mem_cons_self _ _
    · have hmem2 : r ∈ rs := by
        rcases List.mem_cons.mp hmem with rfl | hmem2
        · exact absurd huuid h0
        · exact hmem2
      obtain ⟨r2, hr2mem, hr2⟩ := ih r hmem2 huuid
      refine ⟨r2, ?_, hr2⟩
      simp only [updateRecentsToken, if_neg h0]
      exact List.mem_cons_of_mem r0 hr2mem

/-- C9 counterexample: the cache holds no record for cluster `cid`, the
registry mints the token successfully, yet `CreateToken` returns with
the cache still empty — no record for `cid` is created, so the cache
does not end up holding the minted token's fields. -/
theorem createToken_missing_record_counterexample :
    createToken (.ok ⟨"tid", "tv"⟩) "cid" [] true
      = .ok ⟨⟨"tid", "tv"⟩, [], false⟩ ∧
    ¬∃ r ∈ ([] : List RecentCluster), r.uuid = "cid" := by
  exact ⟨rfl, by simp⟩

/-- C9 amended: when the cache already holds a record for the cluster,
a successful `CreateToken` populates that record's token fields with
the minted token's id and value before returning, and a persistence
failure after the successful registry call still returns the token,
with only the save warning raised. -/
theorem createToken_updates_existing_record (regTok : ClusterToken)
    (clusterID : String) (recents : List RecentCluster) (saveOk : Bool)
    (r : RecentCluster) (hmem : r ∈ recents) (huuid : r.uuid = clusterID) :
    ∃ out, createToken (.ok regTok) clusterID recents saveOk = .ok out ∧
      out.token = regTok ∧
      (∃ r2 ∈ out.recents,
        r2.uuid = clusterID ∧ r2.tokenID = regTok.id ∧ r2.tokenVal = regTok.token) ∧
      out.saveWarning = !saveOk := by
  refine ⟨⟨regTok, updateRecentsToken clusterID regTok recents,
      recents.any (fun x => x.uuid = clusterID) && !saveOk⟩, rfl, rfl, ?_, ?_⟩
  · exact updateRecentsToken_mem clusterID regTok recents r hmem huuid
  · have hany : recents.any (fun x => x.uuid = clusterID) = true :=
      List.any_eq_true.mpr ⟨r, hmem, by simp [huuid]⟩
    simp [hany]

/-- C9 amended, witnessed: with `u1` cached and the registry returning
token `tid`/`tv` but the save failing, the token is returned, the cached
record carries the token fields, and the warning is raised. -/
theorem createToken_updates_existing_record_witness :
    ∃ out, createToken (.ok ⟨"tid", "tv"⟩) "u1"
        [⟨"u1", "a", "o", "", ""⟩] false = .ok out ∧
      out.token = ⟨"tid", "tv"⟩ ∧
      (∃ r2 ∈ out.recents,
        r2.uuid = "u1" ∧ r2.tokenID = "tid" ∧ r2.tokenVal = "tv") ∧
      out.saveWarning = !false :=
  createToken_updates_existing_record ⟨"tid", "tv"⟩ "u1"
    [⟨"u1", "a", "o", "", ""⟩] false ⟨"u1", "a", "o", "", ""⟩
    (by decide) (by decide)

/-! ## C4 — revoking the same token twice -/

theorem removeTokenFromCluster_found (cid tid : String) :
    ∀ (l : List RecentCluster) (r : RecentCluster),
      r ∈ l → r.uuid = cid → r.tokenID = tid →
      ∃ l2, removeTokenFromCluster cid tid l = some l2 ∧
        ∃ r2 ∈ l2, r2.uuid = cid ∧ r2.tokenID = "" ∧ r2.tokenVal = "" := by
  intro l
  induction l with
  | nil => intro r hmem; exact absurd hmem (List.not_mem_nil r)
  | cons r0 rs ih =>
    intro r hmem huuid htid
    by_cases h0 : r0.uuid = cid ∧ r0.tokenID = tid
    · refine ⟨⟨r0.uuid, r0.name, r0.orgSlug, "", ""⟩ :: rs, ?_, ?_⟩
      · simp only [removeTokenFromCluster, if_pos h0]
      · exact ⟨_, List.mem_cons_self _ _, h0.1, rfl, rfl⟩
    · have hmem2 : r ∈ rs := by
        rcases List.mem_cons.mp hmem with rfl | hmem2
        · exact absurd ⟨huuid, htid⟩ h0
        · exact hmem2
      obtain ⟨l2, hl2, r2, hr2mem, hr2⟩ := ih r hmem2 huuid htid
      refine ⟨r0 :: l2, ?_, r2, List.mem_cons_of_mem r0 hr2mem, hr2⟩
      simp only [removeTokenFromCluster, if_neg h0, hl2, Option.map_some']

theorem registryDeleteToken_removes (reg : List (String × String))
    (cid tid : String) (hmem : (cid, tid) ∈ reg) :
    registryDeleteToken reg cid tid
      = .ok (reg.filter (fun p => ¬(p.1 = cid ∧ p.2 = tid))) ∧
    (cid, tid) ∉ reg.filter (fun p => ¬(p.1 = cid ∧ p.2 = tid)) := by
  constructor
  · simp only [registryDeleteToken, if_pos hmem]
  · intro habs
    have := (List.mem_filter.mp habs).2
    simp at this

/-- C4 counterexample: registry holding exactly token `t1` for cluster
`u1`, cache holding the matching record.  The first revoke succeeds,
but the second call with the same pair returns an error — the registry
reports the token as absent and `Client.DeleteToken` propagates that
error rather than treating it as success. -/
theorem revokeToken_twice_counterexample :
    (revokeToken [("u1", "t1")] [⟨"u1", "a", "o", "t1", "v1"⟩] "u1" "t1").1
      = .ok () ∧
    (revokeToken
        (revokeToken [("u1", "t1")] [⟨"u1", "a", "o", "t1", "v1"⟩] "u1" "t1").2.1
        (revokeToken [("u1", "t1")] [⟨"u1", "a", "o", "t1", "v1"⟩] "u1" "t1").2.2
        "u1" "t1").1
      = .error "failed to delete token: token not found" := by
  exact ⟨rfl, rfl⟩

/-- C4 amended: with the token present in the registry and its record
in the cache, the first revoke succeeds and leaves the matching record
with empty token fields; the second call with the same pair returns an
error (propagated from the registry's not-found report, not converted
to success) and leaves the cache unchanged, so the record still holds
no token fields; being an error return, the teardown loop records it as
a warning and continues rather than aborting. -/
theorem revokeToken_twice_amended (reg : List (String × String))
    (recents : List RecentCluster) (cid tid : String) (r : RecentCluster)
    (hreg : (cid, tid) ∈ reg) (hmem : r ∈ recents)
    (huuid : r.uuid = cid) (htid : r.tokenID = tid) :
    (revokeToken reg recents cid tid).1 = .ok () ∧
    (∃ r2 ∈ (revokeToken reg recents cid tid).2.2,
      r2.uuid = cid ∧ r2.tokenID = "" ∧ r2.tokenVal = "") ∧
    (∃ e, (revokeToken (revokeToken reg recents cid tid).2.1
        (revokeToken reg recents cid tid).2.2 cid tid).1 = .error e) ∧
    (revokeToken (revokeToken reg recents cid tid).2.1
        (revokeToken reg recents cid tid).2.2 cid tid).2.2
      = (revokeToken reg recents cid tid).2.2 := by
  obtain ⟨hdel, hnotmem⟩ := registryDeleteToken_removes reg cid tid hreg
  obtain ⟨l2, hl2, hr2⟩ := removeTokenFromCluster_found cid tid recents r hmem huuid htid
  have hfirst : revokeToken reg recents cid tid
      = (.ok (), reg.filter (fun p => ¬(p.1 = cid ∧ p.2 = tid)), l2) := by
    simp only [revokeToken, clientDeleteToken, hdel, hl2]
  have hsecondDel :
      registryDeleteToken (reg.filter (fun p => ¬(p.1 = cid ∧ p.2 = tid))) cid tid
        = .error "token not found" := by
    simp only [registryDeleteToken, if_neg hnotmem]
  refine ⟨by rw [hfirst], ?_, ?_, ?_⟩
  · rw [hfirst]
    exact hr2
  · refine ⟨"failed to delete token: " ++ "token not found", ?_⟩
    rw [hfirst]
    simp only [revokeToken, clientDeleteToken, hsecondDel]
  · rw [hfirst]
    simp only [revokeToken, clientDeleteToken, hsecondDel]

/-- C4 amended, witnessed at a concrete registry and cache. -/
theorem revokeToken_twice_amended_witness :
    (revokeToken [("u9", "t9")] [⟨"u9", "z", "o", "t9", "v9"⟩] "u9" "t9").1
      = .ok () ∧
    (∃ r2 ∈ (revokeToken [("u9", "t9")] [⟨"u9", "z", "o", "t9", "v9"⟩] "u9" "t9").2.2,
      r2.uuid = "u9" ∧ r2.tokenID = "" ∧ r2.tokenVal = "") ∧
    (∃ e, (revokeToken
        (revokeToken [("u9", "t9")] [⟨"u9", "z", "o", "t9", "v9"⟩] "u9" "t9").2.1
        (revokeToken [("u9", "t9")] [⟨"u9", "z", "o", "t9", "v9"⟩] "u9" "t9").2.2
        "u9" "t9").1 = .error e) ∧
    (revokeToken
        (revokeToken [("u9", "t9")] [⟨"u9", "z", "o", "t9", "v9"⟩] "u9" "t9").2.1
        (revokeToken [("u9", "t9")] [⟨"u9", "z", "o", "t9", "v9"⟩] "u9" "t9").2.2
        "u9" "t9").2.2
      = (revokeToken [("u9", "t9")] [⟨"u9", "z", "o", "t9", "v9"⟩] "u9" "t9").2.2 :=
  revokeToken_twice_amended [("u9", "t9")] [⟨"u9", "z", "o", "t9", "v9"⟩]
    "u9" "t9" ⟨"u9", "z", "o", "t9", "v9"⟩ (by decide) (by decide)
    (by decide) (by decide)

/-! ## C8 — fallback selection for token revocation -/

theorem find?_append_first (p : RecentCluster → Bool) :
    ∀ (pre : List RecentCluster) (c : RecentCluster) (suf : List RecentCluster),
      (∀ r ∈ pre, p r = false) → p c = true →
      (pre ++ c :: suf).find? p = some c := by
  intro pre
  induction pre with
  | nil =>
    intro c suf _ hc
    simp [List.find?_cons_of_pos, hc]
  | cons r rs ih =>
    intro c suf hall hc
    have hr : p r = false := hall r (List.mem_cons_self r rs)
    rw [List.cons_append, List.find?_cons_of_neg _ (by simp [hr])]
    exact ih c suf (fun x hx => hall x (List.mem_cons_of_mem r hx)) hc

/-- C8 counterexample: cache `[u1 (token t1), u2 (token t2)]` with u2
the most recently used; the target name `zzz` matches no record.  The
fallback selects `[u1]` — the first (oldest, head-side) token-holding
record — not the most-recently-used token holder `u2`. -/
theorem fallback_not_most_recent_counterexample :
    findClusterByName "zzz"
        [⟨"u1", "alpha", "o", "t1", "v1"⟩, ⟨"u2", "beta", "o", "t2", "v2"⟩] = [] ∧
    computeClustersToDelete false "zzz"
        [⟨"u1", "alpha", "o", "t1", "v1"⟩, ⟨"u2", "beta", "o", "t2", "v2"⟩]
      = [⟨"u1", "alpha", "o", "t1", "v1"⟩] ∧
    ([⟨"u1", "alpha", "o", "t1", "v1"⟩] : List RecentCluster)
      ≠ [⟨"u2", "beta", "o", "t2", "v2"⟩] := by
  refine ⟨rfl, rfl, by decide⟩

/-- C8 amended: when no cache record matches the target name with a
token attached, the set selected for revocation is exactly the single
least-recently-used (first in cache order, head-side) record holding a
token, regardless of token holders nearer the tail. -/
theorem computeClustersToDelete_fallback_oldest (name : String)
    (pre suf : List RecentCluster) (c : RecentCluster)
    (hnomatch : (findClusterByName name (pre ++ c :: suf)).filter
        (fun x => x.tokenID ≠ "") = [])
    (hpre : ∀ r ∈ pre, r.tokenID = "") (hc : c.tokenID ≠ "") :
    computeClustersToDelete false name (pre ++ c :: suf) = [c] := by
  have h1 : pre.find? (fun x => !decide (x.tokenID = "")) = none := by
    rw [List.find?_eq_none]
    intro x hx
    simp [hpre x hx]
  have h2 : (c :: suf).find? (fun x => !decide (x.tokenID = "")) = some c :=
    List.find?_cons_of_pos _ (by simp [hc])
  simp [computeClustersToDelete, hnomatch, h1, h2]
  intro x hx hxtok
  exfalso
  have hxin : x ∈ (findClusterByName name (pre ++ c :: suf)).filter
      (fun y => decide (y.tokenID ≠ "")) :=
    List.mem_filter.mpr ⟨hx, by simp [hxtok]⟩
  rw [hnomatch] at hxin
  exact List.not_mem_nil x hxin

/-- C8 amended, witnessed: token-less `u0` ahead of token-holding `u1`,
with token-holding `u2` behind it; the fallback selects `[u1]`. -/
theorem computeClustersToDelete_fallback_oldest_witness :
    computeClustersToDelete false "zzz"
        ([⟨"u0", "aa", "o", "", ""⟩] ++ ⟨"u1", "bb", "o", "t1", "v1"⟩ ::
          [⟨"u2", "cc", "o", "t2", "v2"⟩])
      = [⟨"u1", "bb", "o", "t1", "v1"⟩] :=
  computeClustersToDelete_fallback_oldest "zzz"
    [⟨"u0", "aa", "o", "", ""⟩] [⟨"u2", "cc", "o", "t2", "v2"⟩]
    ⟨"u1", "bb", "o", "t1", "v1"⟩ (by decide)
    (by decide) (by decide)

/-! ## C5 — deleting a stack name that was not discovered -/

/-- C5: for any delete invocation naming a stack (`all` unset) whose
name is absent from the discovered release list, resolution fails with
the not-found condition carrying the available stack names, the run
returns that error, and no helm uninstall is ever invoked. -/
theorem deleteRun_named_absent (force : Bool) (tmo : Nat) (name : String)
    (noWait : Bool) (sel : Option Nat) (stackList : List String) (env : RunEnv)
    (hname : name ≠ "") (hne : stackList ≠ []) (habsent : name ∉ stackList) :
    resolvePhase ⟨force, tmo, name, false, noWait⟩
        ⟨.ok true, true, .ok stackList, sel⟩
      = .fail "specified stack not found" stackList ∧
    (deleteRun ⟨force, tmo, name, false, noWait⟩
        ⟨.ok true, true, .ok stackList, sel⟩ env).result
      = .error "specified stack not found" ∧
    (deleteRun ⟨force, tmo, name, false, noWait⟩
        ⟨.ok true, true, .ok stackList, sel⟩ env).uninstallCalls = [] := by
  have hisEmpty : stackList.isEmpty = false := by
    simpa [List.isEmpty_iff] using hne
  have hres : resolvePhase ⟨force, tmo, name, false, noWait⟩
      ⟨.ok true, true, .ok stackList, sel⟩
      = .fail "specified stack not found" stackList := by
    simp [resolvePhase, hisEmpty, hname, habsent]
  exact ⟨hres, by simp [deleteRun, hres, earlyStop], by simp [deleteRun, hres, earlyStop]⟩

/-- C5 witnessed at a concrete invocation: deleting `gone` when only
`s1` and `s2` are discovered. -/
theorem deleteRun_named_absent_witness :
    resolvePhase ⟨false, 60, "gone", false, false⟩
        ⟨.ok true, true, .ok ["s1", "s2"], none⟩
      = .fail "specified stack not found" ["s1", "s2"] ∧
    (deleteRun ⟨false, 60, "gone", false, false⟩
        ⟨.ok true, true, .ok ["s1", "s2"], none⟩
        ⟨true, true, true, true, [], [], some true, [], fun _ => some 0, false, some true⟩).result
      = .error "specified stack not found" ∧
    (deleteRun ⟨false, 60, "gone", false, false⟩
        ⟨.ok true, true, .ok ["s1", "s2"], none⟩
        ⟨true, true, true, true, [], [], some true, [], fun _ => some 0, false, some true⟩).uninstallCalls
      = [] :=
  deleteRun_named_absent false 60 "gone" false none ["s1", "s2"]
    ⟨true, true, true, true, [], [], some true, [], fun _ => some 0, false, some true⟩
    (by decide) (by decide) (by decide)

/-! ## C6 — empty target name resolution -/

/-- C6 counterexample: an empty target name with `all` unset, two
discovered stacks and the force flag set makes the run fail with an
error instead of resolving interactively — the claim's "regardless of
the force flag" does not hold. -/
theorem resolve_force_empty_name_counterexample :
    resolvePhase ⟨true, 60, "", false, false⟩
        ⟨.ok true, true, .ok ["s1", "s2"], none⟩
      = .fail "multiple stacks found but no specific stack name provided" [] := by
  rfl

/-- C6 amended: with an empty target name, `all` unset, more than one
discovered stack and the force flag NOT set, the target is resolved by
the interactive selection: choosing the extra final option selects
delete-all, choosing an individual entry selects that stack; no
empty-name error is produced. -/
theorem resolve_empty_name_interactive (tmo : Nat) (noWait : Bool)
    (stackList : List String) (i : Nat)
    (hlen : 2 ≤ stackList.length) :
    (i = stackList.length →
      resolvePhase ⟨false, tmo, "", false, noWait⟩
          ⟨.ok true, true, .ok stackList, some i⟩
        = .proceed true "" true) ∧
    (i ≠ stackList.length →
      resolvePhase ⟨false, tmo, "", false, noWait⟩
          ⟨.ok true, true, .ok stackList, some i⟩
        = .proceed false (stackList.getD i "") true) := by
  have hne : stackList ≠ [] := by
    intro h
    rw [h] at hlen
    simp at hlen
  have hisEmpty : stackList.isEmpty = false := by
    simpa [List.isEmpty_iff] using hne
  have hlen1 : stackList.length ≠ 1 := by omega
  constructor
  · intro hi
    simp [resolvePhase, hisEmpty, hlen1, hi]
  · intro hi
    simp [resolvePhase, hisEmpty, hlen1, hi]

/-- C6 amended, witnessed: with stacks `s1, s2`, selection index 2 (the
synthetic delete-all entry) resolves to delete-all, and index 0
resolves to `s1`; the relevant branch is instantiated at index 0. -/
theorem resolve_empty_name_interactive_witness :
    (0 = (["s1", "s2"] : List String).length →
      resolvePhase ⟨false, 60, "", false, false⟩
          ⟨.ok true, true, .ok ["s1", "s2"], some 0⟩
        = .proceed true "" true) ∧
    (0 ≠ (["s1", "s2"] : List String).length →
      resolvePhase ⟨false, 60, "", false, false⟩
          ⟨.ok true, true, .ok ["s1", "s2"], some 0⟩
        = .proceed false ((["s1", "s2"] : List String).getD 0 "") true) :=
  resolve_empty_name_interactive 60 false ["s1", "s2"] 0 (by decide)

/-! ## C7 — the polling timeout is a warning, not a failure -/

theorem waitPolls_never_zero (polls : Nat → Option Nat)
    (h : ∀ k, polls k ≠ none ∧ polls k ≠ some 0) :
    ∀ fuel k, waitPolls polls fuel k = false := by
  intro fuel
  induction fuel with
  | zero => intro k; rfl
  | succ n ih =>
    intro k
    obtain ⟨h1, h2⟩ := h k
    unfold waitPolls
    match hp : polls k with
    | none => exact absurd hp h1
    | some 0 => exact absurd hp h2
    | some (m + 1) => exact ih (k + 1)

/-- C7: when every poll observes at least one remaining non-terminal
pod (so the wait loop never sees zero before exhausting its deadline
budget), and the run is otherwise unobstructed (connectivity checks
pass, confirmation is forced or affirmative, the namespace prompt is
forced or answered), the run still returns overall success reaching the
final summary, records the timeout warning, reaches the
token-revocation stage, and reaches namespace reconciliation exactly
when the scope was `--all` with the deployment tool available. -/
theorem deleteRun_timeout_is_warning (force : Bool) (tmo : Nat) (fname : String)
    (fall : Bool) (renv : ResolveEnv) (env : RunEnv)
    (all : Bool) (name : String) (helmAvail : Bool)
    (hres : resolvePhase ⟨force, tmo, fname, fall, false⟩ renv
      = .proceed all name helmAvail)
    (hk : env.k8sConnOk = true) (hkc : env.kubectlOk = true)
    (hcx : env.contextOk = true)
    (hconf : force = true ∨ env.confirmOutcome = some true)
    (hpolls : ∀ k, env.podPolls k ≠ none ∧ env.podPolls k ≠ some 0)
    (hns : force = true ∨ env.nsConfirm ≠ none) :
    (deleteRun ⟨force, tmo, fname, fall, false⟩ renv env).result = .ok .done ∧
    (deleteRun ⟨force, tmo, fname, fall, false⟩ renv env).timeoutWarning = true ∧
    (deleteRun ⟨force, tmo, fname, fall, false⟩ renv env).reachedRevokeStage = true ∧
    (deleteRun ⟨force, tmo, fname, fall, false⟩ renv env).reachedNamespaceStage
      = (all && helmAvail) := by
  have htime : waitForTermination tmo env.podPolls = false := by
    unfold waitForTermination
    exact waitPolls_never_zero env.podPolls hpolls (tmo / 2 + 1) 0
  cases force with
  | true =>
    simp [deleteRun, hres, hk, hkc, hcx, runTeardown, htime]
  | false =>
    have hcf : env.confirmOutcome = some true := by
      rcases hconf with h | h
      · exact absurd h (by simp)
      · exact h
    have hnsc : env.nsConfirm ≠ none := by
      rcases hns with h | h
      · exact absurd h (by simp)
      · exact h
    have hnsc2 : env.nsConfirm.isNone = false := by
      cases hcase : env.nsConfirm with
      | none => exact absurd hcase hnsc
      | some b => simp [hcase]
    simp [deleteRun, hres, hk, hkc, hcx, hcf, runTeardown, htime, hnsc2]

/-- C7 witnessed: forced delete of stack `s` with a 2-second timeout
and pods that never terminate — the run succeeds with the timeout
warning recorded. -/
theorem deleteRun_timeout_is_warning_witness :
    (deleteRun ⟨true, 2, "s", false, false⟩ ⟨.ok true, true, .ok ["s"], none⟩
        ⟨true, true, true, true, [], [], some true, [], fun _ => some 1, false, some true⟩).result
      = .ok .done ∧
    (deleteRun ⟨true, 2, "s", false, false⟩ ⟨.ok true, true, .ok ["s"], none⟩
        ⟨true, true, true, true, [], [], some true, [], fun _ => some 1, false, some true⟩).timeoutWarning
      = true ∧
    (deleteRun ⟨true, 2, "s", false, false⟩ ⟨.ok true, true, .ok ["s"], none⟩
        ⟨true, true, true, true, [], [], some true, [], fun _ => some 1, false, some true⟩).reachedRevokeStage
      = true ∧
    (deleteRun ⟨true, 2, "s", false, false⟩ ⟨.ok true, true, .ok ["s"], none⟩
        ⟨true, true, true, true, [], [], some true, [], fun _ => some 1, false, some true⟩).reachedNamespaceStage
      = (false && true) :=
  deleteRun_timeout_is_warning true 2 "s" false ⟨.ok true, true, .ok ["s"], none⟩
    ⟨true, true, true, true, [], [], some true, [], fun _ => some 1, false, some true⟩
    false "s" true rfl rfl rfl rfl (Or.inl rfl)
    (fun _ => ⟨by simp, by simp⟩) (Or.inl rfl)

end Kez
